import Mathlib

/-!
Shallow embedding of `src/viva_tech_banking_scraper.py` (VivaTech sector
companies scraper) and proofs about the spec's claims.

Python strings become `String`; DOM queries performed by BeautifulSoup or
Selenium are modelled by records holding the query results in document
order; a Python exception becomes a `PyError` value threaded through
`Except`.  A name that is referenced but never bound in the module (the
scraper consults `SOCIAL_RE`, which no line of the module defines) raises
`NameError` at the moment the expression is evaluated; the embedding
returns `.error (.nameError "SOCIAL_RE")` at exactly the evaluation points
where CPython would raise.
-/

/-- Occurrence of `needle` as a contiguous run of `l`, scanning positions
left to right. -/
def hasInfixAux (needle : List Char) : List Char → Bool
  | [] => needle.isEmpty
  | c :: rest => needle.isPrefixOf (c :: rest) || hasInfixAux needle rest

/-- Substring test: `strContains hay needle` is `true` iff `needle` occurs
contiguously in `hay`, mirroring Python's `needle in hay`. -/
def strContains (hay needle : String) : Bool :=
  hasInfixAux needle.toList hay.toList

/-- Python `s.strip()`: remove whitespace from both ends. -/
def pyTrim (s : String) : String :=
  String.mk ((s.toList.dropWhile Char.isWhitespace).reverse.dropWhile Char.isWhitespace).reverse

/-- Python `s.lower()`. -/
def pyToLower (s : String) : String := String.mk (s.toList.map Char.toLower)

/-- Python `s.startswith(pre)`. -/
def pyStartsWith (s pre : String) : Bool := pre.toList.isPrefixOf s.toList

/-- Python `s.strip('"“”')`: remove the three quote characters from both ends. -/
def stripQuoteChars (s : String) : String :=
  let qs : List Char := ['"', '“', '”']
  let l := (s.toList.dropWhile (· ∈ qs)).reverse.dropWhile (· ∈ qs)
  String.mk l.reverse

/-- Constant `BASE_URL` of the module. -/
def BASE_URL : String := "https://vivatechnology.com"

/-- Constant `MAX_RETRIES` of the module. -/
def MAX_RETRIES : Nat := 3

/-- Constant `TARGET_CATEGORIES` of the module (a Python set; membership is
all the code uses, so a list with `contains` is a faithful model). -/
def TARGET_CATEGORIES : List String :=
  ["Artificial Intelligence",
   "Connectivity, Cloud & Infrastructure",
   "Cybersecurity",
   "Deep Tech & Quantum Computing",
   "Edtech",
   "Energy",
   "Food & Agriculture",
   "HR & Future of Work",
   "Healthcare & Wellness",
   "Industry & Supply Chain",
   "Luxury, Fashion & Cosmetics",
   "Marketing & Advertising",
   "Mobility & Smart Cities",
   "Retail & E-commerce",
   "Space, Aeronautics & Defense"]

/-- Python exceptions the embedded code can raise. -/
inductive PyError where
  | nameError (unboundName : String)
  | runtimeError (msg : String)
  deriving DecidableEq

/-- One `<a href=...>` element of a profile page, as `_first_homepage` reads
it: its `href` attribute, whether `a.find("span", class_="label symbols")`
finds a child span, and `a.get_text(" ", strip=True)`. -/
structure Anchor where
  href : String
  hasLabelSymbolsSpan : Bool
  text : String
  deriving DecidableEq

/-- First loop of `_first_homepage` (lines 171-175): scan `soup.select("a[href]")`;
for an anchor with a `label symbols` span and "language" in its text, if the
stripped href starts with "http" the code evaluates `SOCIAL_RE.search(href)`,
and `SOCIAL_RE` is unbound in the module, so `NameError` is raised there. -/
def firstHomepageLoop1 : List Anchor → Except PyError Unit
  | [] => .ok ()
  | a :: rest =>
    if a.hasLabelSymbolsSpan && strContains (pyToLower a.text) "language" then
      if pyStartsWith (pyTrim a.href) "http" then .error (.nameError "SOCIAL_RE")
      else firstHomepageLoop1 rest
    else firstHomepageLoop1 rest

/-- Second loop of `_first_homepage` (lines 176-179): scan `soup.find_all("a", href=True)`;
when a stripped href starts with "http" and does not contain
"vivatechnology.com", the third conjunct `not SOCIAL_RE.search(href)` is
evaluated and raises `NameError` (`SOCIAL_RE` is unbound). -/
def firstHomepageLoop2 : List Anchor → Except PyError String
  | [] => .ok ""
  | a :: rest =>
    let href := pyTrim a.href
    if pyStartsWith href "http" && !(strContains href "vivatechnology.com") then
      .error (.nameError "SOCIAL_RE")
    else firstHomepageLoop2 rest

/-- Embedding of `_first_homepage` (lines 170-180): both loops over the same
anchor list, then `return ""`. -/
def firstHomepage (anchors : List Anchor) : Except PyError String :=
  match firstHomepageLoop1 anchors with
  | .error e => .error e
  | .ok _ => firstHomepageLoop2 anchors

/-- Embedding of `_extract_booth` (lines 183-190).  The three `select_one`
calls are modelled by their results: for each selector in order, `none` when
no tag matched, `some t` with `t` the tag's `get_text(strip=True)`.  The
first candidate whose quote-stripped text is non-empty is returned. -/
def extractBooth : List (Option String) → String
  | [] => ""
  | none :: rest => extractBooth rest
  | some t :: rest =>
    let txt := stripQuoteChars t
    if txt = "" then extractBooth rest else txt

/-- Inner accumulator loop of `_extract_categories` (line 196): the Python
`seen` set idiom `not (c in seen or seen.add(c))` keeps the first occurrence
of each text and drops later repeats. -/
def dedupAux (seen : List String) : List String → List String
  | [] => []
  | c :: rest =>
    if c ∈ seen then dedupAux seen rest
    else c :: dedupAux (c :: seen) rest

/-- Embedding of `_extract_categories` (lines 193-196): the chip span texts
in document order, first-seen deduplicated, joined with ", ". -/
def extractCategories (catTexts : List String) : String :=
  String.intercalate ", " (dedupAux [] catTexts)

/-- Embedding of `_extract_overview` (lines 199-202): the matching div texts
joined with a newline. -/
def extractOverview (overviewTexts : List String) : String :=
  String.intercalate "\n" overviewTexts

/-- One parsed profile page, holding the query results the four extractors
read: the `a[href]` anchors in document order, the three booth `select_one`
results, the category chip span texts, and the overview div texts. -/
structure Soup where
  anchors : List Anchor
  boothCandidates : List (Option String)
  catTexts : List String
  overviewTexts : List String
  deriving DecidableEq

/-- Extracted field values of one profile page. -/
structure ExtractedFields where
  booth : String
  homepage : String
  categoriesDetail : String
  overview : String
  deriving DecidableEq

/-- Field extraction over one parsed page, in the order `enrich_companies`
performs it (lines 213-216): booth, homepage, categories, overview.  Only
`_first_homepage` can raise (the unbound `SOCIAL_RE`); the others are total. -/
def extractAll (s : Soup) : Except PyError ExtractedFields :=
  match firstHomepage s.anchors with
  | .error e => .error e
  | .ok homepage =>
    .ok ⟨extractBooth s.boothCandidates, homepage,
         extractCategories s.catTexts, extractOverview s.overviewTexts⟩

/-- Company dictionary produced by `collect_sector_companies` (line 142):
name, url and startup flag. -/
structure CompanyIn where
  name : String
  url : String
  startup : String
  deriving DecidableEq

/-- Enriched dictionary appended at line 217: the input company's fields
plus the four extracted fields. -/
structure CompanyRec where
  name : String
  url : String
  startup : String
  booth : String
  homepage : String
  categoriesDetail : String
  overview : String
  deriving DecidableEq

/-- Body of the per-company `try` block of `enrich_companies` (lines 210-217),
with the fetch+parse step abstracted as an oracle `fetch : url → soup or
error`: `none` when any exception was raised (then the `except` arm only
logs), `some` the appended record otherwise. -/
def processCompany (fetch : String → Except PyError Soup) (c : CompanyIn) :
    Option CompanyRec :=
  match fetch c.url with
  | .error _ => none
  | .ok s =>
    match extractAll s with
    | .error _ => none
    | .ok f => some ⟨c.name, c.url, c.startup, f.booth, f.homepage,
                     f.categoriesDetail, f.overview⟩

/-- Embedding of `enrich_companies` (lines 207-220): each company is
processed inside its own `try/except`, so a failing company contributes
nothing and the loop continues. -/
def enrichCompanies (fetch : String → Except PyError Soup)
    (companies : List CompanyIn) : List CompanyRec :=
  companies.filterMap (processCompany fetch)

/-- Outcome of one renderer attempt in `_fetch_html`: the rendered page
source, or the exception the attempt raised. -/
def RenderOracle : Type := Nat → Except String String

/-- Loop body of `_fetch_html` (lines 154-164), indexed by the attempts left
and the current 1-based attempt number `i`.  A successful attempt sleeps the
fixed 1-unit settle delay and returns the page source; a failed attempt
sleeps `2*i` (this happens after EVERY failed attempt, the last included)
and retries.  The returned list records the sleep durations in order. -/
def fetchAttempts (render : RenderOracle) (url : String) :
    Nat → Nat → Except String String × List Nat
  | 0, _ => (.error ("Failed to fetch " ++ url), [])
  | n + 1, i =>
    match render i with
    | .ok html => (.ok html, [1])
    | .error _ =>
      let (r, ws) := fetchAttempts render url n (i + 1)
      (r, 2 * i :: ws)

/-- Embedding of `_fetch_html` (lines 153-165): up to `MAX_RETRIES` attempts
starting at attempt number 1; when all fail, `RuntimeError(f"Failed to fetch
{url}")` is raised, whose message holds the url and nothing else. -/
def fetchHtml (render : RenderOracle) (url : String) :
    Except String String × List Nat :=
  fetchAttempts render url MAX_RETRIES 1

/-- One `div` descendant of a company block, as the startup-flag probe reads
it: its class list and its rendered text. -/
structure DivEl where
  classes : List String
  text : String
  deriving DecidableEq

/-- One company block of the listing page
(`div.transition-all.duration-500.delay-100.h-full.opacity-100`), holding the
query results the per-block code reads: whether the category div was found
and its chip span texts (stripped), whether the `h3 a` element was found,
its text and href, and the block's `div` descendants in document order. -/
structure Block where
  hasCatDiv : Bool
  cats : List String
  hasNameEl : Bool
  nameText : String
  href : String
  divs : List DivEl
  deriving DecidableEq

/-- Startup-flag probe (lines 137-141): `find_element(By.CSS_SELECTOR,
"div.w-full.flex")` returns the first div carrying both classes; if none
exists the exception is caught and the flag is empty; otherwise the flag is
"startup" exactly when the div's text lowercased contains "startup". -/
def startupFlagOf (divs : List DivEl) : String :=
  match divs.find? (fun d => d.classes.contains "w-full" && d.classes.contains "flex") with
  | some d => if strContains (pyToLower d.text) "startup" then "startup" else ""
  | none => ""

/-- Per-block body of `collect_sector_companies` (lines 127-144): a missing
category div or name element raises inside the block's `try` and the block
is skipped; a block with no target category is skipped by the `continue`;
otherwise the company dictionary is appended, its url being the href
unchanged when it starts with "http" and `BASE_URL + href` otherwise. -/
def processBlock (b : Block) : Option CompanyIn :=
  if !b.hasCatDiv then none
  else if !(b.cats.any (fun c => TARGET_CATEGORIES.contains c)) then none
  else if !b.hasNameEl then none
  else some ⟨pyTrim b.nameText,
             if pyStartsWith b.href "http" then b.href else BASE_URL ++ b.href,
             startupFlagOf b.divs⟩

/-- Embedding of the block loop of `collect_sector_companies` (lines
125-146): the companies list is built by appending, with no
canonicalization and no deduplication. -/
def collectSectorCompanies (blocks : List Block) : List CompanyIn :=
  blocks.filterMap processBlock

/-- Lazily revealed content chunk of a listing page: it renders once a
scroll followed by the settle pause has put a position `p` with
`trigger < p + view` on screen, adding `height` to the document height and
`links` profile links to the DOM.  This models the browser environment
`_scroll_full_page` drives; content triggered by a scroll that is not
followed by a settle pause (the final `scrollTo` of line 112 and the
immediately following `find_elements`) has no time to render. -/
structure Chunk where
  trigger : Nat
  height : Nat
  links : Nat
  deriving DecidableEq

/-- Chunks rendered after settled scrolls up to position `m`. -/
def loadedChunks (page : List Chunk) (m view : Nat) : List Chunk :=
  page.filter (fun c => c.trigger < m + view)

/-- Document height (`document.body.scrollHeight`) after settled scrolls up
to position `m`. -/
def pageHeight (page : List Chunk) (base m view : Nat) : Nat :=
  base + ((loadedChunks page m view).map Chunk.height).sum

/-- While loop of `_scroll_full_page` (lines 107-111): while `pos < total`,
scroll to `pos` and pause (rendering chunks triggered below `pos + view`),
advance `pos` by the viewport height, and re-read `total`.  The fuel bounds
the number of iterations; `some m` is the greatest settled scroll position
when the loop exits, `none` means the fuel ran out first. -/
def scrollSteps (page : List Chunk) (base view : Nat) :
    Nat → Nat → Nat → Option Nat
  | 0, pos, m => if pos < pageHeight page base m view then none else some m
  | fuel + 1, pos, m =>
    if pos < pageHeight page base m view then
      scrollSteps page base view fuel (pos + view) (max m pos)
    else some m

/-- Embedding of `_scroll_full_page` (lines 103-113) run from the top of the
page: the loop starts at `pos = 0` with the initial viewport (positions
below `view`) already rendered, and the final jump to the bottom (line 112)
is not followed by a pause, so it renders nothing before the caller queries
the DOM. -/
def scrollFullPage (page : List Chunk) (base view fuel : Nat) : Option Nat :=
  scrollSteps page base view fuel 0 0

/-- Number of profile links in the DOM when `collect_sector_companies`
queries it right after `_scroll_full_page` returns. -/
def collectedLinks (page : List Chunk) (base view fuel baseLinks : Nat) :
    Option Nat :=
  (scrollFullPage page base view fuel).map
    (fun m => baseLinks + ((loadedChunks page m view).map Chunk.links).sum)

/-- Total number of profile links the page can reveal. -/
def totalLinks (page : List Chunk) (baseLinks : Nat) : Nat :=
  baseLinks + (page.map Chunk.links).sum

/-- Total height the page can reach. -/
def maxHeight (page : List Chunk) (base : Nat) : Nat :=
  base + (page.map Chunk.height).sum

/-- Modelled from the spec: first-seen-order deduplication, the reference
behaviour the categories claim states — each distinct text appears once, at
the position of its first occurrence. -/
def specFirstSeen : List String → List String
  | [] => []
  | c :: rest => c :: specFirstSeen (rest.filter (fun x => x ≠ c))
termination_by l => l.length
decreasing_by
  simp only [List.length_cons]
  exact Nat.lt_succ_of_le (List.length_filter_le _ _)

/-- Concrete profile anchor for a social-media link, first in document order. -/
def socialAnchor : Anchor :=
  ⟨"https://twitter.com/acme", false, "Twitter"⟩

/-- Concrete labelled "language/website" anchor: a `label symbols` span and
"language" in the anchor text, href absolute and external. -/
def labelledAnchor : Anchor :=
  ⟨"https://acme.example", true, "language acme.example"⟩

/-- Concrete anchor whose href is a denylisted social domain. -/
def linkedinAnchor : Anchor :=
  ⟨"https://www.linkedin.com/company/acme", false, "LinkedIn"⟩

/-- Concrete anchor with a plain external absolute href. -/
def externalAnchor : Anchor :=
  ⟨"https://example.org", false, "Example"⟩

/-- Profile page whose only anchor is a plain external link. -/
def externalSoup : Soup := ⟨[externalAnchor], [], [], []⟩

/-- Profile page with no anchors and no field content at all. -/
def emptySoup : Soup := ⟨[], [], [], []⟩

/-- Renderer stub that fails on every attempt, the message naming the attempt. -/
def renderFailNetA : RenderOracle :=
  fun i => .error ("connection reset at attempt " ++ toString i)

/-- Renderer stub that also fails on every attempt but with different
underlying errors than `renderFailNetA`. -/
def renderFailNetB : RenderOracle :=
  fun i => .error ("DNS failure at attempt " ++ toString i)

/-- Renderer stub that succeeds on the first attempt. -/
def renderOkFirst : RenderOracle := fun _ => .ok "<html>ok</html>"

/-- Listing page of height 10 with a viewport of 10 and one extra chunk that
sits exactly at the bottom edge (`trigger = 10`): only a settled scroll past
the initial viewport reveals it.  It carries 1 of the page's 2 links. -/
def lateChunkPage : List Chunk := [⟨10, 10, 1⟩]

/-- Listing block whose profile href repeats and carries a query string. -/
def dupBlock : Block :=
  ⟨true, ["Cybersecurity"], true, "Acme", "https://acme.example/profile?id=1", []⟩

/-- Company dictionary `processBlock` produces for `dupBlock`. -/
def dupCompany : CompanyIn :=
  ⟨"Acme", "https://acme.example/profile?id=1", ""⟩

/-- Listing block whose only mention of "startup" sits in a prose div that
does not carry the `w-full flex` class combination. -/
def proseBlock : Block :=
  ⟨true, ["Cybersecurity"], true, "Acme", "/partner/acme",
   [⟨["my-4", "text-xs"], "We are a young startup disrupting banking"⟩]⟩

/-- Company dictionary `processBlock` produces for `proseBlock`. -/
def proseCompany : CompanyIn :=
  ⟨"Acme", "https://vivatechnology.com/partner/acme", ""⟩

/-- Fetch oracle that raises for the third profile url and returns an empty
page for every other url. -/
def fetchFailThird : String → Except PyError Soup :=
  fun u => if u = "u3" then .error (.runtimeError "Failed to fetch u3") else .ok emptySoup

/-- Five profile links for the isolation witness. -/
def compOf (n u : String) : CompanyIn := ⟨n, u, ""⟩

/-- Anchor list holding one plain external link. -/
def extAnchors : List Anchor := [externalAnchor]

/-- Fetch oracle whose every page holds one plain external link. -/
def extFetch : String → Except PyError Soup := fun _ => .ok externalSoup

/-- Company whose profile page `extFetch` serves. -/
def extCompany : CompanyIn := ⟨"Ex", "https://vivatechnology.com/partner/ex", ""⟩

/-- Unfolding lemma: zero attempts left raise the terminal RuntimeError. -/
lemma fetchAttempts_zero (render : RenderOracle) (url : String) (i : Nat) :
    fetchAttempts render url 0 i = (.error ("Failed to fetch " ++ url), []) := rfl

/-- Unfolding lemma: with attempts left, attempt `i` either returns after the
1-unit settle delay or sleeps `2*i` and retries. -/
lemma fetchAttempts_succ (render : RenderOracle) (url : String) (n i : Nat) :
    fetchAttempts render url (n + 1) i =
      match render i with
      | .ok html => (.ok html, [1])
      | .error _ =>
        let p := fetchAttempts render url n (i + 1)
        (p.1, 2 * i :: p.2) := rfl

/-- C1.  The claim says a profile page holding an earlier social-media
anchor and a labelled "language/website" anchor with an absolute external
href makes the homepage extractor return the labelled href.  On the code
the labelled branch evaluates the undefined `SOCIAL_RE` and raises
`NameError` instead: evaluated at that exact page, `_first_homepage` is the
`NameError`, not `Except.ok "https://acme.example"`. -/
theorem labelled_homepage_raises_nameError :
    firstHomepage [socialAnchor, labelledAnchor] = .error (.nameError "SOCIAL_RE") ∧
    firstHomepage [socialAnchor, labelledAnchor] ≠ .ok "https://acme.example" :=
  ⟨rfl, fun h => Except.noConfusion h⟩

/-- C2.  The claim says a page whose only external links are denylisted
social domains yields the empty homepage.  On the code the second loop
evaluates the undefined `SOCIAL_RE` on the linkedin href and raises
`NameError` instead of returning `""`. -/
theorem denylisted_only_homepage_raises_nameError :
    firstHomepage [linkedinAnchor] = .error (.nameError "SOCIAL_RE") ∧
    firstHomepage [linkedinAnchor] ≠ .ok "" :=
  ⟨rfl, fun h => Except.noConfusion h⟩

/-- C3.  The claim says field extraction never raises.  On a page whose one
anchor is a plain external absolute link, `_first_homepage` — and with it
the whole per-page extraction — raises `NameError` over the undefined
`SOCIAL_RE`. -/
theorem extraction_raises_on_external_link :
    extractAll externalSoup = .error (.nameError "SOCIAL_RE") := rfl

/-- C4 counterexample.  Against a renderer failing on every attempt, the
code sleeps `2*i` after EVERY failed attempt, the final one included: the
recorded waits are `[2, 4, 6]`, total 12, not the claim's non-final-only
schedule `2 + 4 = 6`; and the terminal error of two runs whose underlying
failures differ on every attempt is the same value, naming only the url, so
it carries no last underlying failure. -/
theorem fetch_waits_after_final_attempt :
    (fetchHtml renderFailNetA "u").2 = [2, 4, 6] ∧
    (fetchHtml renderFailNetA "u").2.sum ≠ 2 * 1 + 2 * 2 ∧
    fetchHtml renderFailNetA "u" = fetchHtml renderFailNetB "u" ∧
    (fetchHtml renderFailNetA "u").1 = Except.error "Failed to fetch u" :=
  ⟨rfl, by decide, rfl, rfl⟩

/-- C4 (amended).  When the renderer fails on every attempt, `_fetch_html`
makes exactly `MAX_RETRIES = 3` attempts, sleeps `2*i` after every failed
attempt `i` — the final one included — for a total wait of 12 units, and
then raises `RuntimeError` whose message holds the url and nothing of the
last underlying failure; when the first attempt succeeds, the page source
is returned after the fixed 1-unit settle delay. -/
theorem fetchHtml_linear_retry (render renderOk2 : RenderOracle) (url html : String)
    (hfail : ∀ i, ∃ e, render i = Except.error e)
    (hok : renderOk2 1 = Except.ok html) :
    fetchHtml render url = (Except.error ("Failed to fetch " ++ url), [2, 4, 6]) ∧
    (fetchHtml render url).2.sum = 12 ∧
    fetchHtml renderOk2 url = (Except.ok html, [1]) := by
  obtain ⟨e1, h1⟩ := hfail 1
  obtain ⟨e2, h2⟩ := hfail 2
  obtain ⟨e3, h3⟩ := hfail 3
  have hmain : fetchHtml render url = (Except.error ("Failed to fetch " ++ url), [2, 4, 6]) := by
    unfold fetchHtml MAX_RETRIES
    simp [fetchAttempts_succ, fetchAttempts_zero, h1, h2, h3]
  refine ⟨hmain, by rw [hmain]; rfl, ?_⟩
  unfold fetchHtml MAX_RETRIES
  simp [fetchAttempts_succ, hok]

/-- C4 witness: the amended retry behaviour evaluated at the two concrete
renderer stubs. -/
theorem fetchHtml_linear_retry_witness :
    fetchHtml renderFailNetA "https://vivatechnology.com/partner/acme" =
      (Except.error ("Failed to fetch " ++ "https://vivatechnology.com/partner/acme"), [2, 4, 6]) ∧
    (fetchHtml renderFailNetA "https://vivatechnology.com/partner/acme").2.sum = 12 ∧
    fetchHtml renderOkFirst "https://vivatechnology.com/partner/acme" = (Except.ok "<html>ok</html>", [1]) :=
  fetchHtml_linear_retry renderFailNetA renderOkFirst
    "https://vivatechnology.com/partner/acme" "<html>ok</html>"
    (fun i => ⟨"connection reset at attempt " ++ toString i, rfl⟩) rfl

/-- Dropping the chunks a filter removes can only lower a sum of
per-chunk values. -/
lemma sum_map_filter_le (f : Chunk → Nat) (p : Chunk → Bool) :
    ∀ l : List Chunk, ((l.filter p).map f).sum ≤ (l.map f).sum := by
  intro l
  induction l with
  | nil => simp
  | cons c t ih =>
    by_cases hc : p c
    · simp only [List.filter_cons, hc, if_pos, List.map_cons, List.sum_cons]
      omega
    · simp only [List.filter_cons, hc, List.map_cons, List.sum_cons]
      simp only [Bool.false_eq_true, if_false]
      omega

/-- Document height never exceeds the base height plus every chunk's height. -/
lemma pageHeight_le_maxHeight (page : List Chunk) (base m view : Nat) :
    pageHeight page base m view ≤ maxHeight page base :=
  Nat.add_le_add_left (sum_map_filter_le Chunk.height _ page) base

/-- The scroll loop exits once the position can outrun the bounded document
height. -/
lemma scrollSteps_exits (page : List Chunk) (base view : Nat) :
    ∀ fuel pos m : Nat, maxHeight page base < pos + fuel * view →
      (scrollSteps page base view fuel pos m).isSome = true := by
  intro fuel
  induction fuel with
  | zero =>
    intro pos m hlt
    have hle := pageHeight_le_maxHeight page base m view
    unfold scrollSteps
    rw [if_neg (by omega)]
    rfl
  | succ n ih =>
    intro pos m hlt
    unfold scrollSteps
    by_cases hc : pos < pageHeight page base m view
    · rw [if_pos hc]
      apply ih
      have : (n + 1) * view = n * view + view := by ring
      omega
    · rw [if_neg hc]
      rfl

/-- C5 counterexample.  `lateChunkPage` with base height 10, viewport 10 and
one base link: the loop scrolls only to position 0 and exits as soon as
`pos` reaches the unchanged height, so the bottom-edge chunk is never
revealed — discovery returns 1 link although the page holds K = 2 links,
within the spec's own cap of 600 iterations.  There is no stability counter
or iteration cap in the code to save it. -/
theorem scroll_misses_bottom_triggered_links :
    collectedLinks lateChunkPage 10 10 600 1 = some 1 ∧
    totalLinks lateChunkPage 1 = 2 ∧ ¬ (1 = 2) := by
  refine ⟨by decide, by decide, by decide⟩

/-- C5 (amended).  The stepwise scroll loop always terminates — the position
grows by the viewport each round while the height is bounded, no stability
counter, bottom-plus-stable-round rule or iteration cap exists — and the
link count it leaves for collection never exceeds the page's true total, but
can fall short of it (see the counterexample). -/
theorem scroll_terminates_and_collects_at_most_total
    (page : List Chunk) (base view fuel baseLinks : Nat) (hv : 1 ≤ view) :
    (scrollFullPage page base view (maxHeight page base + 1)).isSome = true ∧
    ∀ n, collectedLinks page base view fuel baseLinks = some n →
      n ≤ totalLinks page baseLinks := by
  constructor
  · apply scrollSteps_exits page base view
    have h1 : maxHeight page base + 1 ≤ (maxHeight page base + 1) * view :=
      Nat.le_mul_of_pos_right _ (by omega)
    omega
  · intro n hn
    unfold collectedLinks at hn
    cases hscroll : scrollFullPage page base view fuel with
    | none => rw [hscroll] at hn; exact Option.noConfusion hn
    | some m =>
      rw [hscroll] at hn
      have hn2 : baseLinks + ((loadedChunks page m view).map Chunk.links).sum = n :=
        Option.some.inj hn
      have hle : ((loadedChunks page m view).map Chunk.links).sum ≤
          (page.map Chunk.links).sum := sum_map_filter_le Chunk.links _ page
      unfold totalLinks
      omega

/-- C5 witness: the amended statement evaluated on the concrete late-chunk
page with viewport 10. -/
theorem scroll_terminates_and_collects_witness :
    (scrollFullPage lateChunkPage 10 10 (maxHeight lateChunkPage 10 + 1)).isSome = true ∧
    (1 : Nat) ≤ totalLinks lateChunkPage 1 :=
  ⟨(scroll_terminates_and_collects_at_most_total lateChunkPage 10 10 600 1 (by decide)).1,
   (scroll_terminates_and_collects_at_most_total lateChunkPage 10 10 600 1 (by decide)).2
     1 (by decide)⟩

/-- Helper: a successful `processBlock` yields exactly the trimmed name, the
verbatim-or-prefixed url, and the startup flag of the block's divs. -/
lemma processBlock_some_eq (b : Block) (c : CompanyIn)
    (hb : processBlock b = some c) :
    c = ⟨pyTrim b.nameText,
         if pyStartsWith b.href "http" then b.href else BASE_URL ++ b.href,
         startupFlagOf b.divs⟩ := by
  unfold processBlock at hb
  split at hb
  · exact Option.noConfusion hb
  · split at hb
    · exact Option.noConfusion hb
    · split at hb
      · exact Option.noConfusion hb
      · exact (Option.some.inj hb).symm

/-- C6 counterexample.  Two identical listing blocks whose href carries a
query string: the aggregate keeps the query parameters and holds two entries
with the same URL, so neither the claimed canonicalization (query
stripping) nor the claimed no-duplicates invariant holds on the code. -/
theorem collect_duplicates_query_url :
    (collectSectorCompanies [dupBlock, dupBlock]).map CompanyIn.url =
      ["https://acme.example/profile?id=1", "https://acme.example/profile?id=1"] ∧
    strContains "https://acme.example/profile?id=1" "?id=1" = true := by
  refine ⟨by decide, by decide⟩

/-- C6 (amended).  The collected url is the block's href unchanged whenever
it starts with "http" (query parameters included) and `BASE_URL ++ href`
otherwise; no deduplication is performed, so overlapping block lists
aggregate to the sum, not the union: processing the concatenation of two
lists yields the concatenation of the results. -/
theorem collect_verbatim_href_no_dedup (blocks : List Block) (b : Block) (c : CompanyIn)
    (hb : processBlock b = some c) :
    c.url = (if pyStartsWith b.href "http" then b.href else BASE_URL ++ b.href) ∧
    collectSectorCompanies (blocks ++ blocks) =
      collectSectorCompanies blocks ++ collectSectorCompanies blocks := by
  constructor
  · rw [processBlock_some_eq b c hb]
  · unfold collectSectorCompanies
    exact List.filterMap_append blocks blocks processBlock

/-- C6 witness: the amended statement at the concrete duplicated block. -/
theorem collect_verbatim_href_no_dedup_witness :
    dupCompany.url =
      (if pyStartsWith dupBlock.href "http" then dupBlock.href
       else BASE_URL ++ dupBlock.href) ∧
    collectSectorCompanies ([dupBlock] ++ [dupBlock]) =
      collectSectorCompanies [dupBlock] ++ collectSectorCompanies [dupBlock] :=
  collect_verbatim_href_no_dedup [dupBlock] dupBlock dupCompany (by decide)

/-- C7.  The startup flag of a collected company is "startup" only when some
div of the block carries both the `w-full` and `flex` classes of the badge
selector and its text, lowercased, contains "startup"; and a block whose
badge-selector divs all lack the word — for instance one mentioning
"startup" only in prose elsewhere — yields the empty flag. -/
theorem startupFlag_requires_badge (b : Block) (c : CompanyIn)
    (hb : processBlock b = some c) :
    (c.startup = "startup" →
      ∃ d ∈ b.divs, d.classes.contains "w-full" = true ∧
        d.classes.contains "flex" = true ∧
        strContains (pyToLower d.text) "startup" = true) ∧
    ((∀ d ∈ b.divs, d.classes.contains "w-full" = true →
        d.classes.contains "flex" = true →
        strContains (pyToLower d.text) "startup" = false) →
      c.startup = "") := by
  have hs : c.startup = startupFlagOf b.divs := by
    rw [processBlock_some_eq b c hb]
  constructor
  · intro hst
    rw [hs] at hst
    unfold startupFlagOf at hst
    cases hfind : b.divs.find?
        (fun d => d.classes.contains "w-full" && d.classes.contains "flex") with
    | none =>
      rw [hfind] at hst
      simp only at hst
      exact absurd hst (by decide)
    | some d =>
      rw [hfind] at hst
      simp only at hst
      have hp := List.find?_some hfind
      have hm := List.mem_of_find?_eq_some hfind
      rw [Bool.and_eq_true] at hp
      by_cases hword : strContains (pyToLower d.text) "startup" = true
      · exact ⟨d, hm, hp.1, hp.2, hword⟩
      · rw [if_neg hword] at hst
        exact absurd hst (by decide)
  · intro hnone
    rw [hs]
    unfold startupFlagOf
    cases hfind : b.divs.find?
        (fun d => d.classes.contains "w-full" && d.classes.contains "flex") with
    | none => rfl
    | some d =>
      have hp := List.find?_some hfind
      have hm := List.mem_of_find?_eq_some hfind
      rw [Bool.and_eq_true] at hp
      simp [hnone d hm hp.1 hp.2]

/-- C7 witness: the prose block, whose only "startup" mention sits outside
any `w-full flex` div, collects with an empty startup flag. -/
theorem startupFlag_requires_badge_witness : proseCompany.startup = "" :=
  (startupFlag_requires_badge proseBlock proseCompany (by decide)).2 (by decide)

/-- Helper: when the processing function succeeds on every element, the
filterMap keeps the whole list's length. -/
lemma length_filterMap_of_isSome {α β : Type} (f : α → Option β) :
    ∀ l : List α, (∀ x ∈ l, (f x).isSome = true) →
      (l.filterMap f).length = l.length := by
  intro l
  induction l with
  | nil => intro _; rfl
  | cons a t ih =>
    intro h
    have ha := h a (List.mem_cons_self a t)
    cases hfa : f a with
    | none => rw [hfa] at ha; simp at ha
    | some b =>
      have ht := ih (fun x hx => h x (List.mem_cons_of_mem a hx))
      simp [List.filterMap_cons, hfa, ht]

/-- C8.  One failing company — whether its fetch raised or its extraction
raised, both reach `processCompany`'s error paths — is skipped and only
skipped: the enrichment of the surrounding list is the concatenation of the
enrichments of the prefix and the suffix, and when every other company
succeeds the output holds exactly one record per other company. -/
theorem enrich_isolates_failures (fetch : String → Except PyError Soup)
    (pre post : List CompanyIn) (c : CompanyIn)
    (hc : processCompany fetch c = none)
    (hok : ∀ x ∈ pre ++ post, (processCompany fetch x).isSome = true) :
    enrichCompanies fetch (pre ++ c :: post) =
      enrichCompanies fetch pre ++ enrichCompanies fetch post ∧
    (enrichCompanies fetch (pre ++ c :: post)).length = pre.length + post.length := by
  have happ : enrichCompanies fetch (pre ++ c :: post) =
      enrichCompanies fetch pre ++ enrichCompanies fetch post := by
    unfold enrichCompanies
    rw [List.filterMap_append]
    simp [List.filterMap_cons, hc]
  refine ⟨happ, ?_⟩
  rw [happ, List.length_append]
  have hpre : (enrichCompanies fetch pre).length = pre.length :=
    length_filterMap_of_isSome _ pre
      (fun x hx => hok x (List.mem_append_left _ hx))
  have hpost : (enrichCompanies fetch post).length = post.length :=
    length_filterMap_of_isSome _ post
      (fun x hx => hok x (List.mem_append_right _ hx))
  rw [hpre, hpost]

/-- C8 witness: five profile links, the third failing to fetch; the run
keeps records for links 1, 2, 4 and 5. -/
theorem enrich_isolates_failures_witness :
    enrichCompanies fetchFailThird
        ([compOf "c1" "u1", compOf "c2" "u2"] ++ compOf "c3" "u3" ::
          [compOf "c4" "u4", compOf "c5" "u5"]) =
      enrichCompanies fetchFailThird [compOf "c1" "u1", compOf "c2" "u2"] ++
        enrichCompanies fetchFailThird [compOf "c4" "u4", compOf "c5" "u5"] ∧
    (enrichCompanies fetchFailThird
        ([compOf "c1" "u1", compOf "c2" "u2"] ++ compOf "c3" "u3" ::
          [compOf "c4" "u4", compOf "c5" "u5"])).length = 2 + 2 :=
  enrich_isolates_failures fetchFailThird
    [compOf "c1" "u1", compOf "c2" "u2"] [compOf "c4" "u4", compOf "c5" "u5"]
    (compOf "c3" "u3") rfl (by decide)

/-- Membership is preserved by first-seen deduplication. -/
lemma specFirstSeen_mem : ∀ (l : List String) (a : String),
    a ∈ specFirstSeen l ↔ a ∈ l := by
  intro l
  induction l using specFirstSeen.induct with
  | case1 => intro a; simp [specFirstSeen]
  | case2 c rest ih =>
    intro a
    rw [specFirstSeen]
    by_cases hac : a = c
    · subst hac; simp
    · simp only [List.mem_cons, ih, List.mem_filter]
      constructor
      · rintro (rfl | ⟨hmem, _⟩)
        · exact Or.inl rfl
        · exact Or.inr hmem
      · rintro (rfl | hmem)
        · exact Or.inl rfl
        · exact Or.inr ⟨hmem, by simp [hac]⟩

/-- First-seen deduplication leaves no duplicates. -/
lemma specFirstSeen_nodup : ∀ l : List String, (specFirstSeen l).Nodup := by
  intro l
  induction l using specFirstSeen.induct with
  | case1 => simp [specFirstSeen]
  | case2 c rest ih =>
    rw [specFirstSeen]
    refine List.nodup_cons.mpr ⟨?_, ih⟩
    intro hmem
    have := (specFirstSeen_mem _ c).mp hmem
    rw [List.mem_filter] at this
    simp at this

/-- First-seen deduplication preserves document order: the result is a
sublist of the input. -/
lemma specFirstSeen_sublist : ∀ l : List String, List.Sublist (specFirstSeen l) l := by
  intro l
  induction l using specFirstSeen.induct with
  | case1 => simp [specFirstSeen]
  | case2 c rest ih =>
    rw [specFirstSeen]
    exact List.Sublist.cons₂ c (ih.trans (List.filter_sublist rest))

/-- The Python `seen`-set loop equals first-seen deduplication of the
elements not yet seen. -/
lemma dedupAux_eq_specFirstSeen : ∀ (l seen : List String),
    dedupAux seen l = specFirstSeen (l.filter (fun x => x ∉ seen)) := by
  intro l
  induction l with
  | nil => intro seen; simp [dedupAux, specFirstSeen]
  | cons c rest ih =>
    intro seen
    simp only [dedupAux]
    by_cases hc : c ∈ seen
    · rw [if_pos hc, ih seen]
      have hpc : (decide (c ∉ seen)) = false := by simp [hc]
      rw [List.filter_cons, hpc]
      simp
    · rw [if_neg hc, ih (c :: seen)]
      have hpc : (decide (c ∉ seen)) = true := by simp [hc]
      rw [List.filter_cons, hpc]
      rw [if_pos (show true = true from rfl)]
      rw [specFirstSeen]
      congr 1
      rw [List.filter_filter]
      congr 1
      apply List.filter_congr
      intro x _
      by_cases hxc : x = c
      · subst hxc; simp
      · by_cases hxs : x ∈ seen <;> simp [hxc, hxs]

/-- C9.  `_extract_categories` returns exactly the chip texts joined with
", " after first-seen deduplication: each distinct text appears once, in
the order of its first occurrence (a duplicate-free sublist of the texts in
document order, with unchanged membership). -/
theorem categories_dedup_first_seen (cats : List String) :
    extractCategories cats = String.intercalate ", " (specFirstSeen cats) ∧
    (specFirstSeen cats).Nodup ∧
    List.Sublist (specFirstSeen cats) cats ∧
    ∀ c, c ∈ specFirstSeen cats ↔ c ∈ cats := by
  refine ⟨?_, specFirstSeen_nodup cats, specFirstSeen_sublist cats,
          fun c => specFirstSeen_mem cats c⟩
  unfold extractCategories
  rw [dedupAux_eq_specFirstSeen]
  congr 1
  simp

/-- The labelled-anchor loop either falls through or raises the
`SOCIAL_RE` NameError; no other outcome exists. -/
lemma firstHomepageLoop1_ok_or_nameError : ∀ l : List Anchor,
    firstHomepageLoop1 l = .ok () ∨
      firstHomepageLoop1 l = .error (.nameError "SOCIAL_RE") := by
  intro l
  induction l with
  | nil => exact Or.inl rfl
  | cons a rest ih =>
    simp only [firstHomepageLoop1]
    split
    · split
      · exact Or.inr rfl
      · exact ih
    · exact ih

/-- Any labelled "language" anchor with an http href makes the first loop
evaluate the undefined `SOCIAL_RE` and raise. -/
lemma firstHomepageLoop1_error_of_mem :
    ∀ (l : List Anchor) (a : Anchor), a ∈ l → a.hasLabelSymbolsSpan = true →
      strContains (pyToLower a.text) "language" = true →
      pyStartsWith (pyTrim a.href) "http" = true →
      firstHomepageLoop1 l = .error (.nameError "SOCIAL_RE") := by
  intro l
  induction l with
  | nil => intro a ha _ _ _; exact absurd ha (List.not_mem_nil a)
  | cons b rest ih =>
    intro a ha h1 h2 h3
    simp only [firstHomepageLoop1]
    split
    · split
      · rfl
      next hhttp =>
        rcases List.mem_cons.mp ha with rfl | hrest
        · exact absurd h3 hhttp
        · exact ih a hrest h1 h2 h3
    next hcond =>
      rcases List.mem_cons.mp ha with rfl | hrest
      · exact absurd (by rw [h1, h2]; rfl) hcond
      · exact ih a hrest h1 h2 h3

/-- Any anchor with an external http href makes the second loop evaluate
the undefined `SOCIAL_RE` and raise. -/
lemma firstHomepageLoop2_error_of_mem :
    ∀ (l : List Anchor) (a : Anchor), a ∈ l →
      pyStartsWith (pyTrim a.href) "http" = true →
      strContains (pyTrim a.href) "vivatechnology.com" = false →
      firstHomepageLoop2 l = .error (.nameError "SOCIAL_RE") := by
  intro l
  induction l with
  | nil => intro a ha _ _; exact absurd ha (List.not_mem_nil a)
  | cons b rest ih =>
    intro a ha h1 h2
    simp only [firstHomepageLoop2]
    split
    · rfl
    next hcond =>
      rcases List.mem_cons.mp ha with rfl | hrest
      · exact absurd (by rw [h1, h2]; rfl) hcond
      · exact ih a hrest h1 h2

/-- C10.  On any page holding an external http anchor (or a labelled
"language" anchor with an http href), `_first_homepage` raises `NameError`
because `SOCIAL_RE` is never defined in the module, and through the
per-link handler of `enrich_companies` the whole profile is dropped from
the output instead of yielding a record with an empty homepage. -/
theorem social_re_nameError_drops_profile (anchors : List Anchor)
    (h : (∃ a ∈ anchors, a.hasLabelSymbolsSpan = true ∧
            strContains (pyToLower a.text) "language" = true ∧
            pyStartsWith (pyTrim a.href) "http" = true) ∨
         (∃ a ∈ anchors, pyStartsWith (pyTrim a.href) "http" = true ∧
            strContains (pyTrim a.href) "vivatechnology.com" = false)) :
    firstHomepage anchors = .error (.nameError "SOCIAL_RE") ∧
    ∀ (fetch : String → Except PyError Soup) (pre post : List CompanyIn)
      (comp : CompanyIn) (s : Soup),
      fetch comp.url = .ok s → s.anchors = anchors →
      enrichCompanies fetch (pre ++ comp :: post) =
        enrichCompanies fetch pre ++ enrichCompanies fetch post := by
  have h1 : firstHomepage anchors = .error (.nameError "SOCIAL_RE") := by
    unfold firstHomepage
    rcases h with ⟨a, ha, hl, ht, hh⟩ | ⟨a, ha, hh, hviva⟩
    · rw [firstHomepageLoop1_error_of_mem anchors a ha hl ht hh]
    · rcases firstHomepageLoop1_ok_or_nameError anchors with hok | herr
      · rw [hok, firstHomepageLoop2_error_of_mem anchors a ha hh hviva]
      · rw [herr]
  refine ⟨h1, ?_⟩
  intro fetch pre post comp s hf hs
  have hp : processCompany fetch comp = none := by
    unfold processCompany
    simp only [hf]
    unfold extractAll
    simp only [hs, h1]
  unfold enrichCompanies
  rw [List.filterMap_append]
  simp [List.filterMap_cons, hp]

/-- C10 witness: the concrete single-external-anchor page raises and its
company is dropped. -/
theorem social_re_nameError_drops_profile_witness :
    firstHomepage extAnchors = .error (.nameError "SOCIAL_RE") ∧
    enrichCompanies extFetch ([] ++ extCompany :: []) =
      enrichCompanies extFetch [] ++ enrichCompanies extFetch [] :=
  ⟨(social_re_nameError_drops_profile extAnchors (by decide)).1,
   (social_re_nameError_drops_profile extAnchors (by decide)).2 extFetch [] [] extCompany
     externalSoup rfl rfl⟩
